import Mathlib

/-!
Verification development for the Godot MCP diagnostic & debug-session engine
(`GodotDebugger` class): log-line parsing, error categorization and
aggregation, crash-dump analysis, project-health scoring, and the debug
session lifecycle.

The TypeScript source is embedded shallowly:
* strings are `String` / `List Char`;
* the JavaScript regular expressions used by the parser are transcribed into
  a small regex AST (`RE`) together with a backtracking matcher whose
  priority order (first-alternative-first, greedy longest-first, lazy
  shortest-first, leftmost search position first) is that of the JS engine;
  every quantifier appearing in the source's patterns ranges over a
  single-character class, which is what the AST supports;
* `parseInt` is modelled by `jsParseInt` (NaN is modelled as `none`);
* JS truthiness tests on possibly-undefined capture groups are modelled by
  `jsTruthy` (undefined and the empty string are falsy);
* the impure timestamp field (`new Date().toISOString()`) is a clock read
  and is omitted from the event record;
* the mutable session registry becomes explicit state passing over
  `DebuggerState`, with asynchronous process callbacks (exit, stdout,
  stderr) modelled as operations on that state.
-/

namespace GodotMcp

/-- JS `\s` and the character set removed by `String.prototype.trim`:
whitespace plus line terminators. -/
def isWsChar (c : Char) : Bool :=
  c = ' ' ∨ c = '\t' ∨ c = '\n' ∨ c = '\r' ∨ c = '\x0b' ∨ c = '\x0c' ∨
  c = ' ' ∨ c = ' ' ∨ c = ' ' ∨ c = ' ' ∨ c = ' ' ∨
  c = ' ' ∨ c = ' ' ∨ c = ' ' ∨ c = ' ' ∨ c = ' ' ∨
  c = ' ' ∨ c = ' ' ∨ c = ' ' ∨ c = ' ' ∨ c = ' ' ∨
  c = ' ' ∨ c = ' ' ∨ c = '　' ∨ c = '﻿'

/-- JS `\d`. -/
def isDigitChar (c : Char) : Bool := '0' ≤ c ∧ c ≤ '9'

/-- JS `.` (without the `s` flag): any character except a line terminator. -/
def isDotChar (c : Char) : Bool :=
  ¬ (c = '\n' ∨ c = '\r' ∨ c = ' ' ∨ c = ' ')

/-- Single-character classes occurring in the source's regexes. -/
inductive CC where
  | dot
  | ws
  | digit
deriving DecidableEq, Repr

def ccMatch : CC → Char → Bool
  | .dot, c => isDotChar c
  | .ws, c => isWsChar c
  | .digit, c => isDigitChar c

/-- Regex AST covering the shapes used by `GodotDebugger`. All quantifiers
in the source's patterns range over a single-character class. -/
inductive RE where
  /-- literal string -/
  | lit : List Char → RE
  /-- capture group `(r)`, 1-based index as in JS match arrays -/
  | grp : Nat → RE → RE
  | seq : RE → RE → RE
  | alt : RE → RE → RE
  /-- `c*` greedy -/
  | starG : CC → RE
  /-- `c+` greedy -/
  | plusG : CC → RE
  /-- `c+?` lazy -/
  | plusL : CC → RE
deriving Repr

/-- Capture assignments: group index ↦ captured characters. -/
def Caps := List (Nat × List Char)

def setCap (caps : Caps) (i : Nat) (v : List Char) : Caps :=
  (i, v) :: (List.filter (fun p => p.1 ≠ i) caps)

def getCap (caps : Caps) (i : Nat) : Option (List Char) :=
  (List.find? (fun p => p.1 = i) caps).map (·.2)

/-- Length of the longest prefix of `s` made of characters in class `cc`. -/
def runLen (cc : CC) : List Char → Nat
  | [] => 0
  | c :: cs => if ccMatch cc c then runLen cc cs + 1 else 0

/-- First success over a list of candidates (backtracking priority order). -/
def firstSome {α : Type} (f : Nat → Option α) : List Nat → Option α
  | [] => none
  | i :: is => match f i with
    | some r => some r
    | none => firstSome f is

/-- `[hi, hi-1, ..., lo]` — greedy quantifier attempt order. -/
def descList (hi lo : Nat) : List Nat :=
  (List.range (hi + 1 - lo)).map (fun j => hi - j)

/-- `[lo, lo+1, ..., hi]` — lazy quantifier attempt order. -/
def ascList (lo hi : Nat) : List Nat :=
  (List.range (hi + 1 - lo)).map (fun j => lo + j)

/-- Backtracking matcher in continuation-passing style. The continuation
receives the unconsumed input and the captures; attempt order replicates
the JS engine: alternatives left to right, greedy longest first, lazy
shortest first. -/
def mmatch {α : Type} : RE → List Char → Caps → (List Char → Caps → Option α) → Option α
  | .lit l, s, caps, k => if l.isPrefixOf s then k (s.drop l.length) caps else none
  | .grp i r, s, caps, k =>
      mmatch r s caps (fun rest caps2 => k rest (setCap caps2 i (s.take (s.length - rest.length))))
  | .seq a b, s, caps, k => mmatch a s caps (fun rest caps2 => mmatch b rest caps2 k)
  | .alt a b, s, caps, k =>
      (match mmatch a s caps k with
       | some r => some r
       | none => mmatch b s caps k)
  | .starG cc, s, caps, k => firstSome (fun i => k (s.drop i) caps) (descList (runLen cc s) 0)
  | .plusG cc, s, caps, k => firstSome (fun i => k (s.drop i) caps) (descList (runLen cc s) 1)
  | .plusL cc, s, caps, k => firstSome (fun i => k (s.drop i) caps) (ascList 1 (runLen cc s))

/-- Match anchored at the start of `s` (all of the log-line patterns begin
with `^`); returns `(match[0], captures)`. -/
def matchAnchored (r : RE) (s : List Char) : Option (List Char × Caps) :=
  mmatch r s [] (fun rest caps => some (s.take (s.length - rest.length), caps))

/-- Unanchored leftmost search, as JS `String.prototype.match` with a
non-global, non-anchored regex. -/
def searchRE (r : RE) : List Char → Option (List Char × Caps)
  | [] => matchAnchored r []
  | c :: rest =>
    match matchAnchored r (c :: rest) with
    | some res => some res
    | none => searchRE r rest

/-- `/^ERROR:\s*(.+?)\s+at:\s+(.+):(\d+)/` -/
def reErrorAt : RE :=
  .seq (.lit "ERROR:".data) (.seq (.starG .ws) (.seq (.grp 1 (.plusL .dot))
    (.seq (.plusG .ws) (.seq (.lit "at:".data) (.seq (.plusG .ws)
      (.seq (.grp 2 (.plusG .dot)) (.seq (.lit ":".data) (.grp 3 (.plusG .digit)))))))))

/-- `/^WARNING:\s*(.+?)\s+at:\s+(.+):(\d+)/` -/
def reWarningAt : RE :=
  .seq (.lit "WARNING:".data) (.seq (.starG .ws) (.seq (.grp 1 (.plusL .dot))
    (.seq (.plusG .ws) (.seq (.lit "at:".data) (.seq (.plusG .ws)
      (.seq (.grp 2 (.plusG .dot)) (.seq (.lit ":".data) (.grp 3 (.plusG .digit)))))))))

/-- `/^(.+\.gd):(\d+):\s*(.+)/` -/
def reScript : RE :=
  .seq (.grp 1 (.seq (.plusG .dot) (.lit ".gd".data)))
    (.seq (.lit ":".data) (.seq (.grp 2 (.plusG .digit))
      (.seq (.lit ":".data) (.seq (.starG .ws) (.grp 3 (.plusG .dot))))))

/-- `/^(ERROR|WARNING|INFO):\s*(.+)/` -/
def reGeneral : RE :=
  .seq (.grp 1 (.alt (.lit "ERROR".data) (.alt (.lit "WARNING".data) (.lit "INFO".data))))
    (.seq (.lit ":".data) (.seq (.starG .ws) (.grp 2 (.plusG .dot))))

/-- `/at (.+):(\d+)/` used by `parseCrashDump` (unanchored). -/
def reCrashFrame : RE :=
  .seq (.lit "at ".data) (.seq (.grp 1 (.plusG .dot)) (.seq (.lit ":".data) (.grp 2 (.plusG .digit))))

/-- JS truthiness of a possibly-undefined capture: `undefined` and the empty
string are falsy. -/
def jsTruthy (o : Option (List Char)) : Bool :=
  match o with
  | some l => !l.isEmpty
  | none => false

/-- Longest decimal-digit prefix, `none` when there is no digit. -/
def digitsPrefix (l : List Char) : Option Nat :=
  let ds := l.takeWhile isDigitChar
  if ds.isEmpty then none
  else some (ds.foldl (fun a c => a * 10 + (c.toNat - '0'.toNat)) 0)

/-- JS `parseInt(s)` in radix 10: skip leading whitespace, optional sign,
longest digit prefix; `NaN` (no digit) is modelled as `none`. -/
def jsParseInt (s : List Char) : Option Int :=
  match s.dropWhile isWsChar with
  | '-' :: rest => (digitsPrefix rest).map (fun n => -(n : Int))
  | '+' :: rest => (digitsPrefix rest).map (fun n => (n : Int))
  | t => (digitsPrefix t).map (fun n => (n : Int))

/-- JS `String.prototype.split('\n')` on character lists. -/
def splitLines : List Char → List (List Char)
  | [] => [[]]
  | c :: rest =>
    match splitLines rest with
    | [] => [[]]
    | l :: ls => if c = '\n' then [] :: l :: ls else (c :: l) :: ls

/-- JS `String.prototype.trim`. -/
def jsTrim (l : List Char) : List Char :=
  ((l.dropWhile isWsChar).reverse.dropWhile isWsChar).reverse

/-- JS `String.prototype.includes` on character lists. -/
def containsSub : List Char → List Char → Bool
  | [], needle => needle.isEmpty
  | c :: t, needle => needle.isPrefixOf (c :: t) || containsSub t needle

/-- JS `String.prototype.toLowerCase`, restricted to the ASCII lowering
performed by `Char.toLower` (every keyword in the source tables is ASCII). -/
def lowerL (l : List Char) : List Char := l.map Char.toLower

/-- `GodotError` record produced by the parser. `type` is one of the source's
string literals `error` / `warning` / `info`; the impure `timestamp` field is
omitted; `line` is `none` when unset or when `parseInt` returned `NaN`. -/
structure GodotError where
  type : String
  message : String
  file : Option String := none
  line : Option Int := none
  category : String := ""
deriving DecidableEq, Repr

/-- The fixed category → keyword table of `categorizeError`, in declaration
order. -/
def categories : List (String × List String) :=
  [("syntax", ["syntax error", "unexpected token", "expected"]),
   ("runtime", ["null reference", "index out of bounds", "division by zero"]),
   ("scene", ["scene not found", "node not found", "invalid scene"]),
   ("resource", ["resource not found", "failed to load", "missing resource"]),
   ("network", ["connection failed", "timeout", "network error"]),
   ("audio", ["audio", "sound", "music"]),
   ("physics", ["collision", "physics", "rigidbody"]),
   ("input", ["input", "mouse", "keyboard"])]

def matchesCategory (lower : List Char) (kws : List String) : Bool :=
  kws.any (fun kw => containsSub lower kw.data)

/-- The `for … of Object.entries(categories)` loop body of `categorizeError`:
return the first category whose keyword list matches. -/
def categorizeLoop (lower : List Char) : List (String × List String) → String
  | [] => "general"
  | (cat, kws) :: rest =>
    if matchesCategory lower kws then cat else categorizeLoop lower rest

def categorizeError (message : String) : String :=
  categorizeLoop (lowerL message.data) categories

/-- `createErrorFromMatch(match, originalLine)`: dispatch on the shape of the
match array. `m0` is `match[0]`, `caps` the capture groups. -/
def createErrorFromMatch (m0 : List Char) (caps : Caps) (originalLine : List Char) : GodotError :=
  let m1 := getCap caps 1
  let m2 := getCap caps 2
  let m3 := getCap caps 3
  let base : GodotError :=
    if "ERROR:".data.isPrefixOf m0 then
      { type := "error", message := String.mk (m1.getD []),
        file := if jsTruthy m2 then some (String.mk (m2.getD [])) else none,
        line := if jsTruthy m3 then jsParseInt (m3.getD []) else none }
    else if "WARNING:".data.isPrefixOf m0 then
      { type := "warning", message := String.mk (m1.getD []),
        file := if jsTruthy m2 then some (String.mk (m2.getD [])) else none,
        line := if jsTruthy m3 then jsParseInt (m3.getD []) else none }
    else if ".gd".data.isSuffixOf (m1.getD []) then
      { type := "error", file := some (String.mk (m1.getD [])),
        line := jsParseInt (m2.getD []), message := String.mk (m3.getD []) }
    else
      { type := if jsTruthy m1 then String.mk (lowerL (m1.getD [])) else "error",
        message := if jsTruthy m2 then String.mk (m2.getD []) else String.mk originalLine }
  { base with category := categorizeError base.message }

/-- The ordered pattern list of `parseLogLine`. -/
def logPatterns : List RE := [reErrorAt, reWarningAt, reScript, reGeneral]

/-- Try the patterns in order; first match wins. -/
def tryPatterns (s : List Char) : List RE → Option (List Char × Caps)
  | [] => none
  | r :: rest =>
    match matchAnchored r s with
    | some res => some res
    | none => tryPatterns s rest

/-- `parseLogLine(line)`: trim, skip empty, first matching pattern builds the
event. -/
def parseLogLine (line : String) : Option GodotError :=
  let trimmed := jsTrim line.data
  if trimmed.isEmpty then none
  else
    match tryPatterns trimmed logPatterns with
    | some (m0, caps) => some (createErrorFromMatch m0 caps trimmed)
    | none => none

/-- `parseLogContent(content)`: split on newlines, keep the lines that parse. -/
def parseLogContent (content : String) : List GodotError :=
  ((splitLines content.data).map String.mk).filterMap parseLogLine

/-! ### Crash-dump analysis -/

structure CrashAnalysis where
  type : String := "unknown"
  location : Option String := none
  stackTrace : List String := []
  causes : List String := []
deriving DecidableEq, Repr

/-- Causes pushed for a `Segmentation fault` / `SIGSEGV` line. -/
def segfaultCauses : List String :=
  ["Memory access violation", "Null pointer dereference", "Buffer overflow"]

/-- Causes pushed for a `Stack overflow` / `SIGSTK` line. -/
def overflowCauses : List String :=
  ["Infinite recursion", "Excessive local variables", "Deep function calls"]

/-- One iteration of the `for (const line of lines)` loop in `parseCrashDump`. -/
def crashStep (a : CrashAnalysis) (line : String) : CrashAnalysis :=
  if containsSub line.data "Segmentation fault".data || containsSub line.data "SIGSEGV".data then
    { a with type := "segmentation_fault", causes := a.causes ++ segfaultCauses }
  else if containsSub line.data "Stack overflow".data || containsSub line.data "SIGSTK".data then
    { a with type := "stack_overflow", causes := a.causes ++ overflowCauses }
  else if containsSub line.data "at ".data && containsSub line.data ":".data then
    match searchRE reCrashFrame line.data with
    | some r =>
      { a with
        location := some (String.mk ((getCap r.2 1).getD [] ++ ':' :: (getCap r.2 2).getD [])),
        stackTrace := a.stackTrace ++ [String.mk (jsTrim line.data)] }
    | none => a
  else a

def parseCrashDump (crashInfo : String) : CrashAnalysis :=
  ((splitLines crashInfo.data).map String.mk).foldl crashStep {}

/-- Specification-side classification of a single crash line, mirroring the
branch order of `crashStep` (the segmentation-fault test comes first). -/
def lineIndicator (line : String) : Option String :=
  if containsSub line.data "Segmentation fault".data || containsSub line.data "SIGSEGV".data then
    some "segmentation_fault"
  else if containsSub line.data "Stack overflow".data || containsSub line.data "SIGSTK".data then
    some "stack_overflow"
  else none

/-- The fixed cause set appended for each crash type. -/
def causesOf (t : String) : List String :=
  if t = "segmentation_fault" then segfaultCauses
  else if t = "stack_overflow" then overflowCauses
  else []

/-- Specification-side view of the stack-frame branch of `crashStep`: the
`path:line` string when the branch fires on this line, `none` otherwise. -/
def frameOf (line : String) : Option String :=
  if (lineIndicator line).isNone && (containsSub line.data "at ".data && containsSub line.data ":".data) then
    match searchRE reCrashFrame line.data with
    | some r => some (String.mk ((getCap r.2 1).getD [] ++ ':' :: (getCap r.2 2).getD []))
    | none => none
  else none

/-- Whether a crash line matches the stack-frame regex `at (.+):(\d+)` at all
(regardless of which branch of the scan consumes it). -/
def matchesFrameRE (line : String) : Bool :=
  (searchRE reCrashFrame line.data).isSome

/-- The `path:line` locator of the first regex match in a line, independent of
the branch structure — what the specification calls the frame's location. -/
def frameLocOf (line : String) : Option String :=
  (searchRE reCrashFrame line.data).map
    (fun r => String.mk ((getCap r.2 1).getD [] ++ ':' :: (getCap r.2 2).getD []))

/-! ### Error aggregation (`identifyErrorPatterns`) -/

/-- JS truthiness of the optional `file` field (`undefined` and `""` falsy). -/
def jsTruthyStr (o : Option String) : Bool :=
  match o with
  | some s => !s.isEmpty
  | none => false

/-- One upsert into an insertion-ordered association list; this is the common
shape of the `messageCounts[msg] = (messageCounts[msg] || 0) + 1` accumulation
and of the `groupBy` helper. -/
def upsert {α β : Type} (key : α → String) (init : α → β) (combine : β → α → β)
    (acc : List (String × β)) (x : α) : List (String × β) :=
  if acc.any (fun p => p.1 = key x) then
    acc.map (fun p => if p.1 = key x then (p.1, combine p.2 x) else p)
  else acc ++ [(key x, init x)]

def collectBy {α β : Type} (key : α → String) (init : α → β) (combine : β → α → β)
    (l : List α) : List (String × β) :=
  l.foldl (upsert key init combine) []

/-- `messageCounts` of `identifyErrorPatterns`. -/
def messageCounts (msgs : List String) : List (String × Nat) :=
  collectBy id (fun _ => 1) (fun c _ => c + 1) msgs

/-- The grouping key `e => e.file!` (`undefined` is excluded upstream by the
truthiness filter; `getD ""` renders the non-null assertion). -/
def fileKey (e : GodotError) : String := (e.file).getD ""

/-- `groupBy(fileErrors, e => e.file!)`. -/
def groupByFile (fileErrors : List GodotError) : List (String × List GodotError) :=
  collectBy fileKey (fun e => [e]) (fun g e => g ++ [e]) fileErrors

def repeatedEntry (m : String) (c : Nat) : String :=
  "Repeated error: \"" ++ m ++ "\" (" ++ toString c ++ " times)"

def multipleEntry (f : String) (c : Nat) : String :=
  "Multiple errors in " ++ f ++ " (" ++ toString c ++ " errors)"

/-- Message entries surviving the strict `count > 3` threshold. -/
def repeatedEntries (errors : List GodotError) : List (String × Nat) :=
  (messageCounts (errors.map (·.message))).filter (fun p => p.2 > 3)

/-- File groups surviving the strict `length > 5` threshold. -/
def bigFileGroups (errors : List GodotError) : List (String × List GodotError) :=
  (groupByFile (errors.filter (fun e => jsTruthyStr e.file))).filter (fun p => p.2.length > 5)

/-- `identifyErrorPatterns(errors)`: repeated-message entries first, then
multiple-errors-per-file entries, in accumulation order. -/
def identifyErrorPatterns (errors : List GodotError) : List String :=
  (repeatedEntries errors).map (fun p => repeatedEntry p.1 p.2) ++
  (bigFileGroups errors).map (fun p => multipleEntry p.1 p.2.length)

/-! ### Project health (`calculateProjectHealth`) -/

/-- The raw weighted score: `100` minus the fixed per-check deductions,
unclamped (may go negative). -/
def healthScore (structuralIssues scriptErrors sceneErrors dependencyIssues
    performanceIssues : Nat) : Int :=
  100 - 5 * (structuralIssues : Int) - 3 * (scriptErrors : Int) - 2 * (sceneErrors : Int)
    - 4 * (dependencyIssues : Int) - 2 * (performanceIssues : Int)

def calculateProjectHealth (structuralIssues scriptErrors sceneErrors dependencyIssues
    performanceIssues : Nat) : String :=
  if healthScore structuralIssues scriptErrors sceneErrors dependencyIssues
      performanceIssues ≥ 90 then "Excellent"
  else if healthScore structuralIssues scriptErrors sceneErrors dependencyIssues
      performanceIssues ≥ 75 then "Good"
  else if healthScore structuralIssues scriptErrors sceneErrors dependencyIssues
      performanceIssues ≥ 50 then "Fair"
  else "Poor"

/-! ### Debug-session lifecycle

The mutable `activeSessions` / `godotProcesses` maps of `GodotDebugger`
become explicit state. Times are abstract `Nat` clock values supplied by the
caller. `procs` holds the ids whose spawned child process has not yet fired
its one-shot `exit` event; `stopDebugSession` deleting the process handle and
the `exit`/`data` callbacks of an already-terminated process being dead are
both modelled by membership in `procs`. -/

inductive SStatus where
  | running
  | stopped
  | crashed
deriving DecidableEq, Repr

structure DebugSession where
  id : String
  startTime : Nat
  endTime : Option Nat := none
  errors : List GodotError := []
  warnings : List GodotError := []
  status : SStatus := .running
deriving DecidableEq, Repr

structure DebuggerState where
  active : List (String × DebugSession) := []
  procs : List String := []
deriving DecidableEq, Repr

/-- The `McpToolResponse` envelope: `{success:true, data}` or
`{success:false, error}`. -/
inductive Resp (α : Type) where
  | ok : α → Resp α
  | err : String → Resp α
deriving DecidableEq, Repr

/-- Payload of a successful `startDebugSession`. -/
structure StartData where
  sessionId : String
  startTime : Nat
  status : SStatus
deriving DecidableEq, Repr

/-- Payload of a successful `stopDebugSession`: the closed session snapshot
(spread after `status = 'stopped'` was assigned) plus derived totals. -/
structure StopData where
  session : DebugSession
  duration : Nat
  totalErrors : Nat
  totalWarnings : Nat
deriving DecidableEq, Repr

def lookupSession (st : DebuggerState) (id : String) : Option DebugSession :=
  (st.active.find? (fun p => p.1 = id)).map (·.2)

/-- `activeSessions.has(id)`. -/
def isActive (st : DebuggerState) (id : String) : Bool :=
  (lookupSession st id).isSome

def statusOf (st : DebuggerState) (id : String) : Option SStatus :=
  (lookupSession st id).map (·.status)

/-- `startDebugSession(sessionId)` with an explicit id; `spawned` records
whether `startGodotWithLogging` found an executable and returned a process. -/
def startDebugSession (st : DebuggerState) (id : String) (now : Nat) (spawned : Bool) :
    DebuggerState × Resp StartData :=
  if isActive st id then
    (st, .err ("Debug session " ++ id ++ " already exists"))
  else
    ({ active := st.active ++ [(id, { id := id, startTime := now })],
       procs := if spawned then st.procs ++ [id] else st.procs },
     .ok { sessionId := id, startTime := now, status := .running })

/-- `stopDebugSession(sessionId)`. -/
def stopDebugSession (st : DebuggerState) (id : String) (now : Nat) :
    DebuggerState × Resp StopData :=
  match lookupSession st id with
  | none => (st, .err ("Debug session " ++ id ++ " not found"))
  | some sess =>
    let closed : DebugSession := { sess with endTime := some now, status := .stopped }
    ({ active := st.active.filter (fun p => p.1 ≠ id),
       procs := st.procs.filter (fun p => p ≠ id) },
     .ok { session := closed, duration := now - sess.startTime,
           totalErrors := sess.errors.length, totalWarnings := sess.warnings.length })

/-- Apply `f` to the session stored under `id`. -/
def withSession (st : DebuggerState) (id : String) (f : DebugSession → DebugSession) :
    DebuggerState :=
  { st with active := st.active.map (fun p => if p.1 = id then (p.1, f p.2) else p) }

/-- The `process.on('exit', …)` handler: a non-zero exit code marks the
session crashed, a zero exit code marks it stopped. Fires only while the
child process is live. -/
def procExit (st : DebuggerState) (id : String) (code : Int) : DebuggerState :=
  if st.procs.contains id then
    { (withSession st id (fun s =>
        { s with status := if code ≠ 0 then .crashed else .stopped })) with
      procs := st.procs.filter (fun p => p ≠ id) }
  else st

/-- The `process.stdout.on('data', …)` handler: parsed error events go to
`errors`, parsed warning events to `warnings`. -/
def stdoutData (st : DebuggerState) (id : String) (parsed : List GodotError) : DebuggerState :=
  if st.procs.contains id then
    withSession st id (fun s =>
      { s with errors := s.errors ++ parsed.filter (fun e => e.type = "error"),
               warnings := s.warnings ++ parsed.filter (fun e => e.type = "warning") })
  else st

/-- The `process.stderr.on('data', …)` handler: every parsed event goes to
`errors`. -/
def stderrData (st : DebuggerState) (id : String) (parsed : List GodotError) : DebuggerState :=
  if st.procs.contains id then
    withSession st id (fun s => { s with errors := s.errors ++ parsed })
  else st

/-- The operations that can touch session state. -/
inductive DebugOp where
  | start : String → Nat → Bool → DebugOp
  | stop : String → Nat → DebugOp
  | exit : String → Int → DebugOp
  | stdout : String → List GodotError → DebugOp
  | stderr : String → List GodotError → DebugOp

def applyOp (st : DebuggerState) : DebugOp → DebuggerState
  | .start id now spawned => (startDebugSession st id now spawned).1
  | .stop id now => (stopDebugSession st id now).1
  | .exit id code => procExit st id code
  | .stdout id parsed => stdoutData st id parsed
  | .stderr id parsed => stderrData st id parsed

/-- States reachable from the empty registry by any sequence of operations. -/
inductive Reachable : DebuggerState → Prop where
  | base : Reachable {}
  | step {st : DebuggerState} (op : DebugOp) : Reachable st → Reachable (applyOp st op)

/-- An active session that is no longer `running` has no live process: its
process already fired `exit` (which is what moved it out of `running`), or it
never had one and its status is still `running`. -/
def statusInv (st : DebuggerState) : Prop :=
  ∀ p ∈ st.active, p.2.status ≠ SStatus.running → st.procs.contains p.1 = false

/-- Specification-side rendering of `categorizeError`'s contract: the first
table entry (in declaration order) whose keyword list contains a substring of
the lowercased message, `general` when none matches. -/
def categorizeSpec (message : String) : String :=
  ((categories.find? (fun p => matchesCategory (lowerL message.data) p.2)).map (·.1)).getD
    "general"

/-- The closed nine-element category enumeration. -/
def categoryNames : List String :=
  ["syntax", "runtime", "scene", "resource", "network", "audio", "physics", "input", "general"]

/-! ## Supporting lemmas -/

theorem foldl_succ_eq {α : Type} (xs : List α) (n : Nat) :
    xs.foldl (fun c _ => c + 1) n = n + xs.length := by
  induction xs generalizing n with
  | nil => simp
  | cons x t ih => rw [List.foldl_cons, ih]; simp; omega

theorem foldl_push_eq {α : Type} (xs : List α) (acc : List α) :
    xs.foldl (fun g e => g ++ [e]) acc = acc ++ xs := by
  induction xs generalizing acc with
  | nil => simp
  | cons x t ih => rw [List.foldl_cons, ih]; simp

/-- `any` on a key coincides with non-emptiness of the key's filter. -/
theorem any_key_iff_filter {β : Type} (acc : List (String × β)) (k : String) :
    acc.any (fun p => p.1 = k) = true ↔ acc.filter (fun p => p.1 = k) ≠ [] := by
  induction acc with
  | nil => simp
  | cons p t ih =>
    by_cases h : p.1 = k <;> simp [List.any_cons, List.filter_cons, h, ih]

/-- Filtering a key out of a keyed in-place update. -/
theorem filter_key_map_update {β : Type} (acc : List (String × β)) (kx : String) (g : β → β)
    (k : String) :
    (acc.map (fun p => if p.1 = kx then (p.1, g p.2) else p)).filter (fun p => p.1 = k) =
      if kx = k then (acc.filter (fun p => p.1 = k)).map (fun p => (p.1, g p.2))
      else acc.filter (fun p => p.1 = k) := by
  induction acc with
  | nil => by_cases h2 : kx = k <;> simp [h2]
  | cons p t ih =>
    by_cases h2 : kx = k
    · subst h2
      by_cases h1 : p.1 = kx <;> simp [List.map_cons, List.filter_cons, h1, ih]
    · by_cases h1 : p.1 = kx
      · have hpk : ¬ p.1 = k := fun hh => h2 (h1.symm.trans hh)
        simp [List.map_cons, List.filter_cons, h1, hpk, ih, h2]
      · have h4 : ¬ k = kx := fun hh => h2 hh.symm
        by_cases h3 : p.1 = k <;>
          simp [List.map_cons, List.filter_cons, h1, h3, h4, ih, h2]

/-- The association list built by `collectBy` holds, under key `k`, exactly
the fold of the inputs whose key is `k` (in input order). -/
theorem collectBy_filter_key {α β : Type} (key : α → String) (init : α → β)
    (combine : β → α → β) (k : String) (l : List α) :
    (collectBy key init combine l).filter (fun p => p.1 = k) =
      (match l.filter (fun x => key x = k) with
       | [] => ([] : List (String × β))
       | x :: xs => [(k, xs.foldl combine (init x))]) := by
  induction l using List.reverseRecOn with
  | nil => rfl
  | append_singleton l x ih =>
    have hfold : collectBy key init combine (l ++ [x]) =
        upsert key init combine (collectBy key init combine l) x := by
      rw [collectBy, List.foldl_append]; rfl
    have hmap : (List.map (fun p => if p.1 = key x then (p.1, combine p.2 x) else p)
          (collectBy key init combine l)).filter (fun p => p.1 = k) =
        if key x = k then
          ((collectBy key init combine l).filter (fun p => p.1 = k)).map
            (fun p => (p.1, combine p.2 x))
        else (collectBy key init combine l).filter (fun p => p.1 = k) :=
      filter_key_map_update (collectBy key init combine l) (key x) (fun b => combine b x) k
    have hsplit : (l ++ [x]).filter (fun y => key y = k) =
        l.filter (fun y => key y = k) ++ if key x = k then [x] else [] := by
      rw [List.filter_append]
      by_cases hk : key x = k <;> simp [List.filter_cons, hk]
    rw [hfold, upsert]
    by_cases hk : key x = k
    · by_cases hne : (collectBy key init combine l).any (fun p => p.1 = key x) = true
      · rw [if_pos hne, hmap, if_pos hk, ih, hsplit, if_pos hk]
        rcases hl : l.filter (fun y => key y = k) with _ | ⟨y, ys⟩
        · exfalso
          have hh := (any_key_iff_filter (collectBy key init combine l) (key x)).mp hne
          rw [hk, ih, hl] at hh
          simp at hh
        · simp [List.foldl_append]
      · rw [if_neg hne, List.filter_append, ih, hsplit, if_pos hk]
        have hfil0 : l.filter (fun y => key y = k) = [] := by
          rcases hl : l.filter (fun y => key y = k) with _ | ⟨y, ys⟩
          · rfl
          · exfalso
            apply hne
            rw [any_key_iff_filter, hk, ih, hl]
            simp
        rw [hfil0]
        simp [List.filter_cons, hk]
    · by_cases hne : (collectBy key init combine l).any (fun p => p.1 = key x) = true
      · rw [if_pos hne, hmap, if_neg hk, ih, hsplit, if_neg hk]
        simp
      · rw [if_neg hne, List.filter_append, ih, hsplit, if_neg hk]
        simp [List.filter_cons, hk]

/-- Membership characterization for `collectBy`. -/
theorem collectBy_mem {α β : Type} (key : α → String) (init : α → β)
    (combine : β → α → β) (k : String) (b : β) (l : List α) :
    (k, b) ∈ collectBy key init combine l ↔
      (match l.filter (fun x => key x = k) with
       | [] => False
       | x :: xs => b = xs.foldl combine (init x)) := by
  have hmem : (k, b) ∈ collectBy key init combine l ↔
      (k, b) ∈ (collectBy key init combine l).filter (fun p => p.1 = k) := by
    rw [List.mem_filter]; simp
  rw [hmem, collectBy_filter_key]
  rcases hl : l.filter (fun x => key x = k) with _ | ⟨y, ys⟩ <;> simp

/-- `messageCounts` holds `(m, c)` exactly when `m` occurs in the input and
`c` is its number of occurrences. -/
theorem messageCounts_mem (msgs : List String) (m : String) (c : Nat) :
    (m, c) ∈ messageCounts msgs ↔
      msgs.filter (fun x => x = m) ≠ [] ∧ c = (msgs.filter (fun x => x = m)).length := by
  rw [messageCounts, collectBy_mem]
  have hid : msgs.filter (fun x => id x = m) = msgs.filter (fun x => x = m) := by
    simp only [id_eq]
  rw [hid]
  rcases hl : msgs.filter (fun x => x = m) with _ | ⟨y, ys⟩
  · simp
  · simp only [List.length_cons, ne_eq, reduceCtorEq, not_false_eq_true, true_and]
    rw [foldl_succ_eq]
    omega

/-- `groupByFile` holds `(f, g)` exactly when some event has file key `f` and
`g` collects, in order, the events with that key. -/
theorem groupByFile_mem (fes : List GodotError) (f : String) (g : List GodotError) :
    (f, g) ∈ groupByFile fes ↔
      fes.filter (fun e => fileKey e = f) ≠ [] ∧
      g = fes.filter (fun e => fileKey e = f) := by
  rw [groupByFile, collectBy_mem]
  rcases hl : fes.filter (fun e => fileKey e = f) with _ | ⟨y, ys⟩
  · simp
  · simp only [ne_eq, reduceCtorEq, not_false_eq_true, true_and]
    rw [foldl_push_eq]
    simp

theorem find?_append_none {α : Type} (l1 l2 : List α) (p : α → Bool)
    (h : l1.find? p = none) : (l1 ++ l2).find? p = l2.find? p := by
  induction l1 with
  | nil => simp
  | cons a t ih =>
    rw [List.find?_cons] at h
    cases hp : p a
    · rw [hp] at h
      rw [List.cons_append, List.find?_cons, hp]
      exact ih h
    · rw [hp] at h; simp at h

theorem find?_key_filter_ne {β : Type} (l : List (String × β)) (id : String) :
    (l.filter (fun p => p.1 ≠ id)).find? (fun p => p.1 = id) = none := by
  induction l with
  | nil => rfl
  | cons q t ih =>
    by_cases h : q.1 = id <;> simp [List.filter_cons, List.find?_cons, h, ih]

theorem active_lookup_some (st : DebuggerState) (id : String) (h : isActive st id = true) :
    ∃ sess, lookupSession st id = some sess := by
  unfold isActive at h
  cases hl : lookupSession st id
  · rw [hl] at h; simp at h
  · exact ⟨_, rfl⟩

theorem inactive_lookup_none (st : DebuggerState) (id : String) (h : isActive st id = false) :
    lookupSession st id = none := by
  unfold isActive at h
  cases hl : lookupSession st id
  · rfl
  · rw [hl] at h; simp at h

theorem find?_append_some {α : Type} (l1 l2 : List α) (p : α → Bool) (x : α)
    (h : l1.find? p = some x) : (l1 ++ l2).find? p = some x := by
  induction l1 with
  | nil => simp at h
  | cons a t ih =>
    rw [List.find?_cons] at h
    rw [List.cons_append, List.find?_cons]
    cases hp : p a
    · rw [hp] at h; exact ih h
    · rw [hp] at h; exact h

theorem find?_key_map_update {β : Type} (l : List (String × β)) (kx : String) (f : β → β)
    (k : String) :
    (l.map (fun p => if p.1 = kx then (p.1, f p.2) else p)).find? (fun p => p.1 = k) =
      if kx = k then (l.find? (fun p => p.1 = k)).map (fun p => (p.1, f p.2))
      else l.find? (fun p => p.1 = k) := by
  induction l with
  | nil => by_cases h2 : kx = k <;> simp [h2]
  | cons p t ih =>
    by_cases h2 : kx = k
    · subst h2
      by_cases h1 : p.1 = kx <;> simp [List.map_cons, List.find?_cons, h1, ih]
    · by_cases h1 : p.1 = kx
      · have hpk : ¬ p.1 = k := fun hh => h2 (h1.symm.trans hh)
        simp [List.map_cons, List.find?_cons, h1, hpk, ih, h2]
      · have h4 : ¬ k = kx := fun hh => h2 hh.symm
        by_cases h3 : p.1 = k <;>
          simp [List.map_cons, List.find?_cons, h1, h3, h4, ih, h2]

theorem find?_key_filter_other {β : Type} (l : List (String × β)) (kx k : String)
    (hne : k ≠ kx) :
    (l.filter (fun p => p.1 ≠ kx)).find? (fun p => p.1 = k) =
      l.find? (fun p => p.1 = k) := by
  induction l with
  | nil => rfl
  | cons p t ih =>
    by_cases h1 : p.1 = kx
    · have hpk : ¬ p.1 = k := fun hh => hne (hh.symm.trans h1)
      rw [List.filter_cons, if_neg (by simp [h1]), ih,
        List.find?_cons_of_neg _ (by simp [hpk])]
    · rw [List.filter_cons, if_pos (by simp [h1])]
      by_cases h3 : p.1 = k
      · rw [List.find?_cons_of_pos _ (by simp [h3]), List.find?_cons_of_pos _ (by simp [h3])]
      · rw [List.find?_cons_of_neg _ (by simp [h3]), List.find?_cons_of_neg _ (by simp [h3]),
          ih]

theorem contains_false_iff (l : List String) (a : String) :
    l.contains a = false ↔ a ∉ l := by
  rw [← Bool.not_eq_true, List.elem_iff]

/-- Updating one session leaves every other lookup unchanged and maps the
updated one. -/
theorem lookup_withSession (st : DebuggerState) (kx : String)
    (f : DebugSession → DebugSession) (k : String) :
    lookupSession (withSession st kx f) k =
      if kx = k then (lookupSession st k).map f else lookupSession st k := by
  simp only [lookupSession, withSession]
  rw [find?_key_map_update]
  by_cases h2 : kx = k
  · rw [if_pos h2, if_pos h2]
    cases st.active.find? (fun p => p.1 = k) <;> simp
  · rw [if_neg h2, if_neg h2]

theorem start_eq_pos (st : DebuggerState) (id : String) (now : Nat) (sp : Bool)
    (h : isActive st id = true) : (startDebugSession st id now sp).1 = st := by
  simp [startDebugSession, h]

theorem start_eq_neg (st : DebuggerState) (id : String) (now : Nat) (sp : Bool)
    (h : isActive st id = false) :
    (startDebugSession st id now sp).1 =
      { active := st.active ++ [(id, { id := id, startTime := now })],
        procs := if sp then st.procs ++ [id] else st.procs } := by
  simp [startDebugSession, h]

theorem stop_eq_none (st : DebuggerState) (id : String) (now : Nat)
    (h : lookupSession st id = none) : (stopDebugSession st id now).1 = st := by
  simp [stopDebugSession, h]

theorem stop_eq_some (st : DebuggerState) (id : String) (now : Nat) (sess : DebugSession)
    (h : lookupSession st id = some sess) :
    (stopDebugSession st id now).1 =
      { active := st.active.filter (fun p => p.1 ≠ id),
        procs := st.procs.filter (fun p => p ≠ id) } := by
  simp [stopDebugSession, h]

theorem statusOf_withSession_other (st : DebuggerState) (kx : String)
    (f : DebugSession → DebugSession) (k : String) (h : kx ≠ k) :
    statusOf (withSession st kx f) k = statusOf st k := by
  simp [statusOf, lookup_withSession, h]

theorem statusOf_withSession_preserving (st : DebuggerState) (kx : String)
    (f : DebugSession → DebugSession) (k : String) (h : ∀ s, (f s).status = s.status) :
    statusOf (withSession st kx f) k = statusOf st k := by
  simp only [statusOf, lookup_withSession]
  by_cases h2 : kx = k
  · rw [if_pos h2]
    cases lookupSession st k <;> simp [h]
  · rw [if_neg h2]

theorem reachable_statusInv {st : DebuggerState} (h : Reachable st) : statusInv st := by
  induction h with
  | base => intro p hp hterm; simp at hp
  | step op hst ih =>
    rename_i st0
    cases op with
    | start id now sp =>
      by_cases hact : isActive st0 id = true
      · have heq : applyOp st0 (DebugOp.start id now sp) = st0 := by
          simp only [applyOp]; rw [start_eq_pos st0 id now sp hact]
        rw [heq]; exact ih
      · have hact' : isActive st0 id = false := by simpa using hact
        have heq := start_eq_neg st0 id now sp hact'
        simp only [applyOp]
        rw [heq]
        intro p hp hterm
        simp only [List.mem_append, List.mem_singleton] at hp
        rcases hp with hp | hp
        · have hc := ih p hp hterm
          have hfind : st0.active.find? (fun q => q.1 = id) = none := by
            have hn := inactive_lookup_none st0 id hact'
            rw [lookupSession] at hn
            exact Option.map_eq_none'.mp hn
          have hne : p.1 ≠ id := by
            have := List.find?_eq_none.mp hfind p hp
            simpa using this
          rw [contains_false_iff] at hc ⊢
          cases sp <;> simp_all [List.mem_append]
        · rw [hp] at hterm
          simp at hterm
    | stop id now =>
      cases hl : lookupSession st0 id with
      | none =>
        have heq : applyOp st0 (DebugOp.stop id now) = st0 := by
          simp only [applyOp]; rw [stop_eq_none st0 id now hl]
        rw [heq]; exact ih
      | some sess =>
        have heq := stop_eq_some st0 id now sess hl
        simp only [applyOp]
        rw [heq]
        intro p hp hterm
        rw [List.mem_filter] at hp
        have hc := ih p hp.1 hterm
        rw [contains_false_iff] at hc ⊢
        intro hmem
        exact hc (List.mem_filter.mp hmem).1
    | exit id code =>
      by_cases hpc : st0.procs.contains id = true
      · simp only [applyOp, procExit]
        rw [if_pos hpc]
        intro p hp hterm
        simp only [withSession, List.mem_map] at hp
        obtain ⟨q, hq, hpq⟩ := hp
        rw [contains_false_iff]
        intro hmem
        rw [List.mem_filter] at hmem
        by_cases hqid : q.1 = id
        · rw [← hpq] at hmem
          simp [hqid] at hmem
        · have hqstat : q.2.status ≠ SStatus.running := by
            rw [← hpq] at hterm
            simpa [hqid] using hterm
          have hc := ih q hq hqstat
          rw [contains_false_iff] at hc
          rw [← hpq] at hmem
          simp [hqid] at hmem
          exact hc hmem
      · have heq : applyOp st0 (DebugOp.exit id code) = st0 := by
          simp only [applyOp, procExit]
          rw [if_neg (by simpa using hpc)]
        rw [heq]; exact ih
    | stdout id parsed =>
      by_cases hpc : st0.procs.contains id = true
      · simp only [applyOp, stdoutData]
        rw [if_pos hpc]
        intro p hp hterm
        simp only [withSession, List.mem_map] at hp
        obtain ⟨q, hq, hpq⟩ := hp
        by_cases hqid : q.1 = id
        · have hqstat : q.2.status ≠ SStatus.running := by
            rw [← hpq] at hterm
            simpa [hqid] using hterm
          have hc := ih q hq hqstat
          rw [← hpq]
          simpa [hqid] using hc
        · have hqstat : q.2.status ≠ SStatus.running := by
            rw [← hpq] at hterm
            simpa [hqid] using hterm
          have hc := ih q hq hqstat
          rw [← hpq]
          simpa [hqid] using hc
      · have heq : applyOp st0 (DebugOp.stdout id parsed) = st0 := by
          simp only [applyOp, stdoutData]
          rw [if_neg (by simpa using hpc)]
        rw [heq]; exact ih
    | stderr id parsed =>
      by_cases hpc : st0.procs.contains id = true
      · simp only [applyOp, stderrData]
        rw [if_pos hpc]
        intro p hp hterm
        simp only [withSession, List.mem_map] at hp
        obtain ⟨q, hq, hpq⟩ := hp
        by_cases hqid : q.1 = id
        · have hqstat : q.2.status ≠ SStatus.running := by
            rw [← hpq] at hterm
            simpa [hqid] using hterm
          have hc := ih q hq hqstat
          rw [← hpq]
          simpa [hqid] using hc
        · have hqstat : q.2.status ≠ SStatus.running := by
            rw [← hpq] at hterm
            simpa [hqid] using hterm
          have hc := ih q hq hqstat
          rw [← hpq]
          simpa [hqid] using hc
      · have heq : applyOp st0 (DebugOp.stderr id parsed) = st0 := by
          simp only [applyOp, stderrData]
          rw [if_neg (by simpa using hpc)]
        rw [heq]; exact ih

/-- The categorization loop is first-match-wins over the table. -/
theorem categorizeLoop_eq_find (lower : List Char) (table : List (String × List String)) :
    categorizeLoop lower table =
      ((table.find? (fun p => matchesCategory lower p.2)).map (·.1)).getD "general" := by
  induction table with
  | nil => rfl
  | cons p rest ih =>
    obtain ⟨cat, kws⟩ := p
    cases h : matchesCategory lower kws
    · rw [categorizeLoop, if_neg (by simp [h]), ih, List.find?_cons_of_neg _ (by simp [h])]
    · rw [categorizeLoop, if_pos (by simp [h]), List.find?_cons_of_pos _ (by simp [h])]
      rfl

/-- The categorization loop returns `general` or a category of the table. -/
theorem categorizeLoop_mem (lower : List Char) (table : List (String × List String)) :
    categorizeLoop lower table = "general" ∨ categorizeLoop lower table ∈ table.map (·.1) := by
  induction table with
  | nil => left; rfl
  | cons p rest ih =>
    obtain ⟨cat, kws⟩ := p
    cases h : matchesCategory lower kws
    · rw [categorizeLoop, if_neg (by simp [h])]
      rcases ih with ih | ih
      · left; exact ih
      · right; simp [ih]
    · rw [categorizeLoop, if_pos (by simp [h])]
      right; simp

/-- The crash type after one scan step: a type-indicating line overwrites it,
any other line leaves it. -/
theorem crashStep_type (a : CrashAnalysis) (line : String) :
    (crashStep a line).type = (lineIndicator line).getD a.type := by
  cases h1 : (containsSub line.data "Segmentation fault".data || containsSub line.data "SIGSEGV".data) <;>
  cases h2 : (containsSub line.data "Stack overflow".data || containsSub line.data "SIGSTK".data) <;>
  cases h3 : (containsSub line.data "at ".data && containsSub line.data ":".data) <;>
  cases hs : searchRE reCrashFrame line.data <;>
  simp [crashStep, lineIndicator, h1, h2, h3, hs]

/-- The cause list after one scan step: a type-indicating line appends its
fixed cause set, any other line leaves the accumulator. -/
theorem crashStep_causes (a : CrashAnalysis) (line : String) :
    (crashStep a line).causes = a.causes ++ ((lineIndicator line).map causesOf).getD [] := by
  cases h1 : (containsSub line.data "Segmentation fault".data || containsSub line.data "SIGSEGV".data) <;>
  cases h2 : (containsSub line.data "Stack overflow".data || containsSub line.data "SIGSTK".data) <;>
  cases h3 : (containsSub line.data "at ".data && containsSub line.data ":".data) <;>
  cases hs : searchRE reCrashFrame line.data <;>
  simp [crashStep, lineIndicator, causesOf, h1, h2, h3, hs]

/-- The stack-frame branch fires exactly when `frameOf` is defined; it appends
the trimmed line. -/
theorem crashStep_stackTrace (a : CrashAnalysis) (line : String) :
    (crashStep a line).stackTrace =
      a.stackTrace ++ (if (frameOf line).isSome then [String.mk (jsTrim line.data)] else []) := by
  cases h1 : (containsSub line.data "Segmentation fault".data || containsSub line.data "SIGSEGV".data) <;>
  cases h2 : (containsSub line.data "Stack overflow".data || containsSub line.data "SIGSTK".data) <;>
  cases h3 : (containsSub line.data "at ".data && containsSub line.data ":".data) <;>
  cases hs : searchRE reCrashFrame line.data <;>
  simp [crashStep, frameOf, lineIndicator, h1, h2, h3, hs]

/-- The location after one scan step: a processed frame line overwrites it,
any other line leaves it. -/
theorem crashStep_location (a : CrashAnalysis) (line : String) :
    (crashStep a line).location = ((frameOf line).map some).getD a.location := by
  cases h1 : (containsSub line.data "Segmentation fault".data || containsSub line.data "SIGSEGV".data) <;>
  cases h2 : (containsSub line.data "Stack overflow".data || containsSub line.data "SIGSTK".data) <;>
  cases h3 : (containsSub line.data "at ".data && containsSub line.data ":".data) <;>
  cases hs : searchRE reCrashFrame line.data <;>
  simp [crashStep, frameOf, lineIndicator, h1, h2, h3, hs]

/-- Folding the crash scan: the final type is the classification of the last
type-indicating line. -/
theorem foldl_crashStep_type (lines : List String) :
    ∀ a : CrashAnalysis,
      (lines.foldl crashStep a).type = ((lines.filterMap lineIndicator).getLast?).getD a.type := by
  induction lines with
  | nil => intro a; rfl
  | cons x xs ih =>
    intro a
    rw [List.foldl_cons, ih, List.filterMap_cons]
    cases h : lineIndicator x with
    | none => rw [crashStep_type, h]; rfl
    | some t =>
      rw [List.getLast?_cons, crashStep_type, h]
      cases hl : (xs.filterMap lineIndicator).getLast? <;> simp [hl]

/-- Folding the crash scan: causes accumulate across all type-indicating
lines, in line order, and are never reset. -/
theorem foldl_crashStep_causes (lines : List String) :
    ∀ a : CrashAnalysis,
      (lines.foldl crashStep a).causes =
        a.causes ++ (lines.filterMap lineIndicator).flatMap causesOf := by
  induction lines with
  | nil => intro a; simp
  | cons x xs ih =>
    intro a
    rw [List.foldl_cons, ih, List.filterMap_cons, crashStep_causes]
    cases h : lineIndicator x <;> simp [h]

/-- Folding the crash scan: the stack trace is the trimmed processed frame
lines in order. -/
theorem foldl_crashStep_stackTrace (lines : List String) :
    ∀ a : CrashAnalysis,
      (lines.foldl crashStep a).stackTrace =
        a.stackTrace ++
          (lines.filter (fun l => (frameOf l).isSome)).map (fun l => String.mk (jsTrim l.data)) := by
  induction lines with
  | nil => intro a; simp
  | cons x xs ih =>
    intro a
    rw [List.foldl_cons, ih, crashStep_stackTrace]
    cases h : (frameOf x).isSome <;> simp [List.filter_cons, h]

/-- Folding the crash scan: the final location comes from the last processed
frame line. -/
theorem foldl_crashStep_location (lines : List String) :
    ∀ a : CrashAnalysis,
      (lines.foldl crashStep a).location =
        (((lines.filterMap frameOf).getLast?).map some).getD a.location := by
  induction lines with
  | nil => intro a; rfl
  | cons x xs ih =>
    intro a
    rw [List.foldl_cons, ih, List.filterMap_cons]
    cases h : frameOf x with
    | none => rw [crashStep_location, h]; rfl
    | some loc =>
      rw [List.getLast?_cons, crashStep_location, h]
      cases hl : (xs.filterMap frameOf).getLast? <;> simp [hl]

/-! ## Claims -/

/-- **C1.** For the input line `ERROR: Null reference at: Player.gd:45`, the
log parser produces exactly one event with kind `error`, message
`Null reference`, file `Player.gd`, line 45, and category `runtime`. -/
theorem c1_error_line_event :
    parseLogContent "ERROR: Null reference at: Player.gd:45" =
      [{ type := "error", message := "Null reference", file := some "Player.gd",
         line := some 45, category := "runtime" }] := by
  decide

/-- **C3 (code bug).** On the generic line `ERROR: Null reference` (no
`at: <file>:<line>` locator), the code does **not** produce an event with
message `Null reference` and unset file: the generic pattern matches, but
`createErrorFromMatch` dispatches on `match[0].startsWith('ERROR:')` into the
branch written for the locator pattern, so the event's message becomes the
severity word `ERROR` and its `file` field receives the message text. -/
theorem c3_generic_error_line_mangled :
    parseLogLine "ERROR: Null reference" =
      some { type := "error", message := "ERROR", file := some "Null reference",
             line := none, category := "general" } ∧
    parseLogLine "WARNING: deprecated call" =
      some { type := "warning", message := "WARNING", file := some "deprecated call",
             line := none, category := "general" } ∧
    parseLogLine "INFO: engine started" =
      some { type := "info", message := "engine started", file := none,
             line := none, category := "general" } := by
  refine ⟨by decide, by decide, by decide⟩

/-- **C2 (counterexample).** The first line of this crash text matches the
stack-frame regex `at (.+):(\d+)` with locator `Main.gd:5`, yet the analysis
neither records it as a stack frame (the segmentation-fault branch consumes
the line first) nor takes `location` from the first matching line: `location`
comes from the **last** processed frame line, `B.gd:2`. -/
theorem c2_counterexample :
    matchesFrameRE "Segmentation fault at Main.gd:5" = true ∧
    frameLocOf "Segmentation fault at Main.gd:5" = some "Main.gd:5" ∧
    parseCrashDump "Segmentation fault at Main.gd:5\nat A.gd:1\nat B.gd:2" =
      { type := "segmentation_fault", location := some "B.gd:2",
        stackTrace := ["at A.gd:1", "at B.gd:2"], causes := segfaultCauses } := by
  refine ⟨by decide, by decide, by decide⟩

/-- **C4.** The final `crashType` is the classification of the last
type-indicating line (the per-line classification `lineIndicator` checks
`Segmentation fault`/`SIGSEGV` before `Stack overflow`/`SIGSTK`, as the scan
does); with no indicator line it stays `unknown`; a segmentation-fault line
followed later by a stack-overflow line yields `stack_overflow`. -/
theorem c4_crash_type_last_indicator_wins (crashInfo : String) :
    (parseCrashDump crashInfo).type =
      ((((splitLines crashInfo.data).map String.mk).filterMap lineIndicator).getLast?).getD
        "unknown" ∧
    (parseCrashDump "Segmentation fault\nsome text\nStack overflow").type = "stack_overflow" ∧
    (parseCrashDump "hello\nworld").type = "unknown" := by
  refine ⟨?_, by decide, by decide⟩
  exact foldl_crashStep_type ((splitLines crashInfo.data).map String.mk) {}

/-- **C10.** The candidate-cause list accumulates and is never reset: every
type-indicating line appends its fixed three causes in scan order, so a
segmentation-fault line followed by a stack-overflow line yields the causes
of both types (with `crashType = stack_overflow`), and a repeated indicator
line duplicates its causes. -/
theorem c10_causes_accumulate (crashInfo : String) :
    (parseCrashDump crashInfo).causes =
      (((splitLines crashInfo.data).map String.mk).filterMap lineIndicator).flatMap causesOf ∧
    parseCrashDump "Segmentation fault\nsome text\nStack overflow" =
      { type := "stack_overflow", location := none, stackTrace := [],
        causes := segfaultCauses ++ overflowCauses } ∧
    (parseCrashDump "SIGSEGV\nSIGSEGV").causes = segfaultCauses ++ segfaultCauses := by
  refine ⟨?_, by decide, by decide⟩
  exact foldl_crashStep_causes ((splitLines crashInfo.data).map String.mk) {}

/-- **C2 (amended).** Every crash line on which the stack-frame branch fires
(it matches `at (.+):(\d+)` and does not contain a crash-type indicator
substring) is appended, trimmed and in order, to `stackTrace`, and `location`
is the locator of the **last** such line. -/
theorem c2_stack_frames_and_last_location (crashInfo : String) :
    (parseCrashDump crashInfo).stackTrace =
      (((splitLines crashInfo.data).map String.mk).filter (fun l => (frameOf l).isSome)).map
        (fun l => String.mk (jsTrim l.data)) ∧
    (parseCrashDump crashInfo).location =
      (((splitLines crashInfo.data).map String.mk).filterMap frameOf).getLast? := by
  constructor
  · exact foldl_crashStep_stackTrace ((splitLines crashInfo.data).map String.mk) {}
  · rw [parseCrashDump, foldl_crashStep_location]
    cases (((splitLines crashInfo.data).map String.mk).filterMap frameOf).getLast? <;> rfl

/-- **C5.** `patterns` contains a repeated-error entry for a message iff that
exact message occurs strictly more than 3 times (its count being the number
of occurrences, so 4 identical messages give exactly one entry with count 4
and 3 give none), and a multiple-errors entry for a file iff strictly more
than 5 events carry that file (6 trigger it, 5 do not). -/
theorem c5_pattern_thresholds (errors : List GodotError) (m f : String) (c : Nat)
    (g : List GodotError) :
    ((m, c) ∈ repeatedEntries errors ↔
      c = ((errors.map (·.message)).filter (fun x => x = m)).length ∧ 3 < c) ∧
    ((f, g) ∈ bigFileGroups errors ↔
      g = (errors.filter (fun e => jsTruthyStr e.file)).filter (fun e => fileKey e = f) ∧
      5 < g.length) ∧
    identifyErrorPatterns errors =
      (repeatedEntries errors).map (fun p => repeatedEntry p.1 p.2) ++
        (bigFileGroups errors).map (fun p => multipleEntry p.1 p.2.length) ∧
    identifyErrorPatterns
        (List.replicate 4 { type := "error", message := "E", category := "general" }) =
      [repeatedEntry "E" 4] ∧
    identifyErrorPatterns
        (List.replicate 3 { type := "error", message := "E", category := "general" }) = [] ∧
    identifyErrorPatterns
        (["a", "b", "c", "d", "e", "f"].map (fun s =>
          { type := "error", message := s, file := some "F.gd", category := "general" })) =
      [multipleEntry "F.gd" 6] ∧
    identifyErrorPatterns
        (["a", "b", "c", "d", "e"].map (fun s =>
          { type := "error", message := s, file := some "F.gd", category := "general" })) =
      [] := by
  refine ⟨?_, ?_, rfl, by decide, by decide, by decide, by decide⟩
  · rw [repeatedEntries, List.mem_filter, messageCounts_mem]
    constructor
    · rintro ⟨⟨hne, hc⟩, h3⟩
      exact ⟨hc, by simpa using h3⟩
    · rintro ⟨hc, h3⟩
      refine ⟨⟨?_, hc⟩, by simpa using h3⟩
      intro hnil
      rw [hnil] at hc
      simp at hc
      omega
  · rw [bigFileGroups, List.mem_filter, groupByFile_mem]
    constructor
    · rintro ⟨⟨hne, hg⟩, h5⟩
      exact ⟨hg, by simpa using h5⟩
    · rintro ⟨hg, h5⟩
      refine ⟨⟨?_, hg⟩, by simpa using h5⟩
      intro hnil
      rw [← hg] at hnil
      rw [hnil] at h5
      simp at h5

/-- **C8.** For every message, `categorizeError` lowercases it and returns
the first category, in table-declaration order, one of whose keywords is a
substring of the lowercased message, `general` when none matches; its result
is always a member of the closed nine-element enumeration. -/
theorem c8_categorize_first_match (m : String) :
    categorizeError m = categorizeSpec m ∧ categorizeError m ∈ categoryNames := by
  constructor
  · exact categorizeLoop_eq_find (lowerL m.data) categories
  · rcases categorizeLoop_mem (lowerL m.data) categories with h | h
    · rw [categorizeError, h]; decide
    · rw [categorizeError, categoryNames]
      have h8 : categorizeLoop (lowerL m.data) categories ∈
          ["syntax", "runtime", "scene", "resource", "network", "audio", "physics", "input"] := by
        simpa [categories] using h
      simp only [List.mem_cons, List.not_mem_nil] at h8 ⊢
      tauto

/-- **C6.** The health score is `100 − 5·structural − 3·script − 2·scene −
4·dependency − 2·performance` (unclamped), and the band is `Excellent` iff
score ≥ 90, `Good` iff 75 ≤ score < 90, `Fair` iff 50 ≤ score < 75, and
`Poor` otherwise; zero issues give 100 → Excellent, 2 dependency issues give
92 → Excellent, 3 dependency issues plus 4 script errors give 76 → Good. -/
theorem c6_health_score (a b c d e : Nat) :
    (calculateProjectHealth a b c d e = "Excellent" ↔ healthScore a b c d e ≥ 90) ∧
    (calculateProjectHealth a b c d e = "Good" ↔
      75 ≤ healthScore a b c d e ∧ healthScore a b c d e < 90) ∧
    (calculateProjectHealth a b c d e = "Fair" ↔
      50 ≤ healthScore a b c d e ∧ healthScore a b c d e < 75) ∧
    (calculateProjectHealth a b c d e = "Poor" ↔ healthScore a b c d e < 50) ∧
    healthScore 0 0 0 0 0 = 100 ∧ calculateProjectHealth 0 0 0 0 0 = "Excellent" ∧
    healthScore 0 0 0 2 0 = 92 ∧ calculateProjectHealth 0 0 0 2 0 = "Excellent" ∧
    healthScore 0 4 0 3 0 = 76 ∧ calculateProjectHealth 0 4 0 3 0 = "Good" := by
  refine ⟨?_, ?_, ?_, ?_, by decide, by decide, by decide, by decide, by decide, by decide⟩ <;>
  · unfold calculateProjectHealth
    split_ifs with h1 h2 h3 <;>
      first
        | exact iff_of_true rfl (by omega)
        | exact iff_of_false (by decide) (by omega)

/-- **C7.** Session lifecycle error contract: `start` with an explicit id
that is currently active fails with the duplicate-session error (so a second
`start` with the same explicit id fails); `stop` with an id not in the active
set fails with the session-not-found error; a successful `stop` removes the
id from the active set, so an immediately repeated `stop` fails with the
session-not-found error. -/
theorem c7_session_lifecycle
    (st : DebuggerState) (id : String) (now now2 now3 : Nat) (sp : Bool)
    (st2 : DebuggerState) (id2 : String) (now4 now5 : Nat) (sp2 : Bool)
    (hactive : isActive st id = true) (hmiss : isActive st2 id2 = false) :
    (startDebugSession st id now sp).2 =
      Resp.err ("Debug session " ++ id ++ " already exists") ∧
    isActive (startDebugSession st2 id2 now4 sp2).1 id2 = true ∧
    (startDebugSession (startDebugSession st2 id2 now4 sp2).1 id2 now5 sp2).2 =
      Resp.err ("Debug session " ++ id2 ++ " already exists") ∧
    (stopDebugSession st2 id2 now4).2 =
      Resp.err ("Debug session " ++ id2 ++ " not found") ∧
    isActive (stopDebugSession st id now2).1 id = false ∧
    (stopDebugSession (stopDebugSession st id now2).1 id now3).2 =
      Resp.err ("Debug session " ++ id ++ " not found") := by
  obtain ⟨sess, hsess⟩ := active_lookup_some st id hactive
  have hnone2 : lookupSession st2 id2 = none := inactive_lookup_none st2 id2 hmiss
  have hfind2 : st2.active.find? (fun p => p.1 = id2) = none := by
    rw [lookupSession] at hnone2
    exact Option.map_eq_none'.mp hnone2
  have hstart2 : isActive (startDebugSession st2 id2 now4 sp2).1 id2 = true := by
    rw [startDebugSession, if_neg (by rw [hmiss]; simp)]
    simp only [isActive, lookupSession]
    rw [find?_append_none _ _ _ hfind2]
    simp [List.find?_cons]
  have hstop1 : isActive (stopDebugSession st id now2).1 id = false := by
    rw [stopDebugSession, hsess]
    simp only [isActive, lookupSession]
    rw [find?_key_filter_ne]
    rfl
  refine ⟨?_, hstart2, ?_, ?_, hstop1, ?_⟩
  · rw [startDebugSession, if_pos (by rw [hactive])]
  · obtain ⟨sess2, hsess2⟩ := active_lookup_some _ id2 hstart2
    rw [startDebugSession, if_pos (by rw [hstart2])]
  · rw [stopDebugSession, hnone2]
  · rw [stopDebugSession, inactive_lookup_none _ id hstop1]

/-- **C9 (counterexample).** After `start "s"` and a non-zero process exit,
the session is active with status `crashed`; calling `stopDebugSession` on it
succeeds and sets/reports status `stopped` — a `Crashed → Stopped` transition
between the two terminal states, which the claim says never happens. -/
theorem c9_counterexample :
    statusOf (applyOp (applyOp {} (DebugOp.start "s" 0 true)) (DebugOp.exit "s" 1)) "s" =
      some SStatus.crashed ∧
    (stopDebugSession (applyOp (applyOp {} (DebugOp.start "s" 0 true)) (DebugOp.exit "s" 1))
        "s" 5).2 =
      Resp.ok { session := { id := "s", startTime := 0, endTime := some 5, errors := [],
                             warnings := [], status := SStatus.stopped },
                duration := 5, totalErrors := 0, totalWarnings := 0 } ∧
    SStatus.stopped ≠ SStatus.crashed := by
  refine ⟨by decide, by decide, by decide⟩

/-- **C9 (amended).** Every session is created with status `running`; in any
reachable state, a session whose status has left `running` is never given a
different in-place status by any operation — it either keeps its status or is
removed from the active set (only by `stop`, whose returned snapshot however
reports `stopped` even for a crashed session, see the counterexample); in
particular the process-exit callback never fires on such a session, and no
operation ever sets a status back to `running`. -/
theorem c9_amended_status_machine
    (st : DebuggerState) (hreach : Reachable st)
    (op : DebugOp) (id : String) (s : SStatus)
    (hs : statusOf st id = some s) (hterm : s ≠ SStatus.running)
    (code : Int) (st2 : DebuggerState) (id2 : String) (now : Nat) (sp : Bool)
    (hfresh : isActive st2 id2 = false) :
    (statusOf (applyOp st op) id = some s ∨ statusOf (applyOp st op) id = none) ∧
    applyOp st (DebugOp.exit id code) = st ∧
    statusOf (startDebugSession st2 id2 now sp).1 id2 = some SStatus.running := by
  cases hl : lookupSession st id with
  | none => rw [statusOf, hl] at hs; simp at hs
  | some sess =>
  have hstat : sess.status = s := by
    rw [statusOf, hl] at hs
    simpa using hs
  obtain ⟨pe, hfind, hpe2⟩ : ∃ pe, st.active.find? (fun p => p.1 = id) = some pe ∧
      pe.2 = sess := by
    rw [lookupSession] at hl
    exact Option.map_eq_some'.mp hl
  have hpe1 : pe.1 = id := by
    have := List.find?_some hfind
    simpa using this
  have hmem := List.mem_of_find?_eq_some hfind
  have hinv := reachable_statusInv hreach
  have hnp : st.procs.contains id = false := by
    have := hinv pe hmem (by rw [hpe2, hstat]; exact hterm)
    rwa [hpe1] at this
  have hexit : applyOp st (DebugOp.exit id code) = st := by
    simp only [applyOp, procExit]
    rw [if_neg (by rw [hnp]; simp)]
  have hstart : statusOf (startDebugSession st2 id2 now sp).1 id2 = some SStatus.running := by
    rw [start_eq_neg st2 id2 now sp hfresh]
    have hfind2 : st2.active.find? (fun p => p.1 = id2) = none := by
      have hn := inactive_lookup_none st2 id2 hfresh
      rw [lookupSession] at hn
      exact Option.map_eq_none'.mp hn
    simp only [statusOf, lookupSession]
    rw [find?_append_none _ _ _ hfind2]
    simp [List.find?_cons]
  refine ⟨?_, hexit, hstart⟩
  cases op with
  | start id' now' sp' =>
    by_cases hact : isActive st id' = true
    · left
      simp only [applyOp]
      rw [start_eq_pos st id' now' sp' hact]
      exact hs
    · left
      simp only [applyOp]
      rw [start_eq_neg st id' now' sp' (by simpa using hact)]
      simp only [statusOf, lookupSession]
      rw [find?_append_some _ _ _ _ hfind]
      simp [hpe2, hstat]
  | stop id' now' =>
    cases hl' : lookupSession st id' with
    | none =>
      left
      simp only [applyOp]
      rw [stop_eq_none st id' now' hl']
      exact hs
    | some sess' =>
      by_cases hid : id = id'
      · right
        subst hid
        simp only [applyOp]
        rw [stop_eq_some st id now' sess' hl']
        simp only [statusOf, lookupSession]
        rw [find?_key_filter_ne]
        rfl
      · left
        simp only [applyOp]
        rw [stop_eq_some st id' now' sess' hl']
        simp only [statusOf, lookupSession]
        rw [find?_key_filter_other _ _ _ hid, hfind]
        simp [hpe2, hstat]
  | exit id' code' =>
    by_cases hpc : st.procs.contains id' = true
    · by_cases hid : id = id'
      · subst hid
        rw [hnp] at hpc
        simp at hpc
      · left
        simp only [applyOp, procExit]
        rw [if_pos hpc]
        have hoth : statusOf (withSession st id'
            (fun s => { s with status := if code' ≠ 0 then SStatus.crashed
                                         else SStatus.stopped })) id = statusOf st id :=
          statusOf_withSession_other st id' _ id (fun hh => hid hh.symm)
        simp only [statusOf, lookupSession] at hoth ⊢
        simp only [withSession] at hoth ⊢
        rw [hoth, hfind]
        simp [hpe2, hstat]
    · left
      simp only [applyOp, procExit]
      rw [if_neg (by simpa using hpc)]
      exact hs
  | stdout id' parsed =>
    by_cases hpc : st.procs.contains id' = true
    · left
      simp only [applyOp, stdoutData]
      have hpres : statusOf (withSession st id' (fun s =>
          { s with errors := s.errors ++ parsed.filter (fun e => e.type = "error"),
                   warnings := s.warnings ++ parsed.filter (fun e => e.type = "warning") }))
          id = statusOf st id :=
        statusOf_withSession_preserving _ _ _ _ (fun s => rfl)
      rw [if_pos hpc, hpres]
      exact hs
    · left
      simp only [applyOp, stdoutData]
      rw [if_neg (by simpa using hpc)]
      exact hs
  | stderr id' parsed =>
    by_cases hpc : st.procs.contains id' = true
    · left
      simp only [applyOp, stderrData]
      have hpres : statusOf (withSession st id'
          (fun s => { s with errors := s.errors ++ parsed })) id = statusOf st id :=
        statusOf_withSession_preserving _ _ _ _ (fun s => rfl)
      rw [if_pos hpc, hpres]
      exact hs
    · left
      simp only [applyOp, stderrData]
      rw [if_neg (by simpa using hpc)]
      exact hs

/-- Witness for `c9_amended_status_machine`: the concrete reachable state in
which session `s` has crashed, an output operation as the next step, and the
empty registry for the fresh start. -/
theorem c9_amended_status_machine_witness :
    Reachable (applyOp (applyOp {} (DebugOp.start "s" 0 true)) (DebugOp.exit "s" 1)) ∧
    statusOf (applyOp (applyOp {} (DebugOp.start "s" 0 true)) (DebugOp.exit "s" 1)) "s" =
      some SStatus.crashed ∧
    SStatus.crashed ≠ SStatus.running ∧
    isActive ({} : DebuggerState) "b" = false ∧
    ((statusOf (applyOp (applyOp (applyOp {} (DebugOp.start "s" 0 true))
          (DebugOp.exit "s" 1)) (DebugOp.stdout "s" [])) "s" = some SStatus.crashed ∨
      statusOf (applyOp (applyOp (applyOp {} (DebugOp.start "s" 0 true))
          (DebugOp.exit "s" 1)) (DebugOp.stdout "s" [])) "s" = none) ∧
     applyOp (applyOp (applyOp {} (DebugOp.start "s" 0 true)) (DebugOp.exit "s" 1))
        (DebugOp.exit "s" 0) =
      applyOp (applyOp {} (DebugOp.start "s" 0 true)) (DebugOp.exit "s" 1) ∧
     statusOf (startDebugSession ({} : DebuggerState) "b" 7 true).1 "b" =
      some SStatus.running) :=
  ⟨Reachable.step (DebugOp.exit "s" 1) (Reachable.step (DebugOp.start "s" 0 true)
      Reachable.base),
   by decide, by decide, by decide,
   c9_amended_status_machine
     (applyOp (applyOp {} (DebugOp.start "s" 0 true)) (DebugOp.exit "s" 1))
     (Reachable.step (DebugOp.exit "s" 1) (Reachable.step (DebugOp.start "s" 0 true)
       Reachable.base))
     (DebugOp.stdout "s" []) "s" SStatus.crashed (by decide) (by decide)
     0 ({} : DebuggerState) "b" 7 true (by decide)⟩

/-- Witness for `c7_session_lifecycle`: concrete states with `a` active and
`b` absent. -/
theorem c7_session_lifecycle_witness :
    isActive (startDebugSession {} "a" 0 false).1 "a" = true ∧
    isActive ({} : DebuggerState) "b" = false ∧
    ((startDebugSession (startDebugSession {} "a" 0 false).1 "a" 1 true).2 =
        Resp.err ("Debug session " ++ "a" ++ " already exists") ∧
      isActive (startDebugSession {} "b" 2 true).1 "b" = true ∧
      (startDebugSession (startDebugSession {} "b" 2 true).1 "b" 3 true).2 =
        Resp.err ("Debug session " ++ "b" ++ " already exists") ∧
      (stopDebugSession ({} : DebuggerState) "b" 2).2 =
        Resp.err ("Debug session " ++ "b" ++ " not found") ∧
      isActive (stopDebugSession (startDebugSession {} "a" 0 false).1 "a" 4).1 "a" = false ∧
      (stopDebugSession (stopDebugSession (startDebugSession {} "a" 0 false).1 "a" 4).1 "a" 5).2 =
        Resp.err ("Debug session " ++ "a" ++ " not found")) :=
  ⟨by decide, by decide,
    c7_session_lifecycle (startDebugSession {} "a" 0 false).1 "a" 1 4 5 true
      ({} : DebuggerState) "b" 2 3 true (by decide) (by decide)⟩

end GodotMcp
